import Mathlib

/-
Verification of the core logic of the rag-research-agent repository against its
specification, via a shallow embedding in Lean 4.

Embedded source files:
  * src/shared/utils.py        (reduce_docs, _generate_uuid)
  * src/graphs/main_graph.py   (route_query, check_finished, graph wiring,
                                conduct_research, respond)
  * src/graphs/researcher_graph.py (retrieve_in_parallel, graph wiring)
  * src/graphs/index_graph.py  (index_docs)
  * src/crud/milvus_crud_manager.py (MilvusCRUDManager.delete_documents)

Modelling conventions:
  * `_generate_uuid` computes an md5 content hash formatted as a UUID string
    (an external-library computation).  It is modelled as an abstract
    deterministic function parameter `gen : String → String`; every theorem
    is proved for all such functions, and witnesses instantiate it with a
    concrete function.
  * A langchain `Document` is modelled by its `page_content` and the `uuid`
    key of its metadata (the only metadata key `reduce_docs` reads or
    writes); `uuid = none` models a metadata dict without a "uuid" key.
  * The Python expression `metadata.get("uuid") or _generate_uuid(...)` treats both a
    missing key and an empty string as falsy; the embedding reproduces this.
  * The Python `set` of ids is modelled as a `List (Option String)` used
    only through membership, which matches set membership.
-/

set_option autoImplicit false

namespace RagAgent

/-- A langchain Document restricted to the fields `reduce_docs` and the
graph nodes inspect: its textual content and the `uuid` metadata entry
(`none` = no "uuid" key in the metadata dict). -/
structure Document where
  page_content : String
  uuid : Option String
  deriving DecidableEq, Repr

/-- One element of a list passed to `reduce_docs` as `new`: a string, a dict
(with its `page_content` field and optional `metadata["uuid"]`), or a
`Document`. -/
inductive DocItem where
  | str (s : String)
  | dict (page_content : String) (uuid : Option String)
  | doc (d : Document)
  deriving DecidableEq, Repr

/-- The `new` argument of `reduce_docs`: either a single string (the literal
"delete" is the delete signal, checked first in the source) or a list of
items. -/
inductive NewInput where
  | str (s : String)
  | items (l : List DocItem)
  deriving DecidableEq, Repr

/-- Id derivation of the dict branch of `reduce_docs`:
`metadata.get("uuid") or _generate_uuid(item.get("page_content", ""))`.
A missing key (`none`) and an empty string are both falsy in Python. -/
def dict_item_id (gen : String → String) (page_content : String)
    (uuid : Option String) : String :=
  match uuid with
  | some u => if u = "" then gen page_content else u
  | none => gen page_content

/-- Id derivation of the Document branch of `reduce_docs`:
`item.metadata.get("uuid", "")`, falling back to
`_generate_uuid(item.page_content)` when missing or empty. -/
def doc_item_id (gen : String → String) (d : Document) : String :=
  if d.uuid.getD "" = "" then gen d.page_content else d.uuid.getD ""

/-- Derived id of a list item, per branch of the source loop. -/
def derived_id (gen : String → String) : DocItem → String
  | .str s => gen s
  | .dict page_content uuid => dict_item_id gen page_content uuid
  | .doc d => doc_item_id gen d

/-- The `page_content` the source reads off a list item (dicts use
`item.get("page_content", "")`; this model keeps the field explicit). -/
def item_content : DocItem → String
  | .str s => s
  | .dict page_content _ => page_content
  | .doc d => d.page_content

/-- Whether a list item takes the string branch of the source loop. -/
def DocItem.isString : DocItem → Bool
  | .str _ => true
  | _ => false

/-- The Document the source loop appends for an item when it appends one:
strings and dicts get a fresh Document carrying the derived id; a Document
lacking a (non-empty) uuid is deep-copied with the derived id written back,
otherwise it is passed through unchanged. -/
def mk_doc (gen : String → String) : DocItem → Document
  | .str s => ⟨s, some (gen s)⟩
  | .dict page_content uuid => ⟨page_content, some (dict_item_id gen page_content uuid)⟩
  | .doc d =>
    if d.uuid.getD "" = "" then { d with uuid := some (gen d.page_content) } else d

/-- The `for item in new` loop of `reduce_docs` (utils.py lines 114-143),
threading the mutable `existing_ids` set and producing `new_list`.  String
items are appended unconditionally and their id added to the set; dict and
Document items are appended only when their id is not in the set. -/
def reduce_docs_items (gen : String → String) :
    List DocItem → List (Option String) → List Document
  | [], _ => []
  | .str s :: rest, ids =>
    ⟨s, some (gen s)⟩ :: reduce_docs_items gen rest (some (gen s) :: ids)
  | .dict page_content uuid :: rest, ids =>
    let item_id := dict_item_id gen page_content uuid
    if some item_id ∈ ids then reduce_docs_items gen rest ids
    else ⟨page_content, some item_id⟩ ::
      reduce_docs_items gen rest (some item_id :: ids)
  | .doc d :: rest, ids =>
    let item_id := doc_item_id gen d
    let new_item :=
      if d.uuid.getD "" = "" then { d with uuid := some item_id } else d
    if some item_id ∈ ids then reduce_docs_items gen rest ids
    else new_item :: reduce_docs_items gen rest (some item_id :: ids)

/-- The contents of the `existing_ids` set after the loop has processed a
list of items, starting from a given set (string items always add their id;
dict/Document items add theirs only when it was absent). -/
def ids_after (gen : String → String) :
    List DocItem → List (Option String) → List (Option String)
  | [], ids => ids
  | .str s :: rest, ids => ids_after gen rest (some (gen s) :: ids)
  | .dict page_content uuid :: rest, ids =>
    let item_id := dict_item_id gen page_content uuid
    if some item_id ∈ ids then ids_after gen rest ids
    else ids_after gen rest (some item_id :: ids)
  | .doc d :: rest, ids =>
    let item_id := doc_item_id gen d
    if some item_id ∈ ids then ids_after gen rest ids
    else ids_after gen rest (some item_id :: ids)

/-- `reduce_docs` (utils.py lines 80-145).  `existing = none` models
`existing=None`.  The delete signal is the plain string "delete" (the
source compares `new == "delete"` before anything else); any other single
string is appended as a fresh Document without deduplication; a list is
merged via the dedup loop seeded with the uuids of the existing documents. -/
def reduce_docs (gen : String → String) (existing : Option (List Document))
    (new : NewInput) : List Document :=
  match new with
  | .str s =>
    if s = "delete" then []
    else (existing.getD []) ++ [⟨s, some (gen s)⟩]
  | .items l =>
    let existing_list := existing.getD []
    existing_list ++ reduce_docs_items gen l (existing_list.map (·.uuid))

/-- The document a loop iteration appends always carries the derived id in
its uuid metadata. -/
lemma mk_doc_uuid (gen : String → String) (item : DocItem) :
    (mk_doc gen item).uuid = some (derived_id gen item) := by
  cases item with
  | str s => rfl
  | dict page_content uuid => rfl
  | doc d =>
    simp only [mk_doc, derived_id, doc_item_id]
    by_cases h : d.uuid.getD "" = ""
    · simp [h]
    · simp only [h, if_neg h]
      cases hu : d.uuid with
      | none => simp [hu] at h
      | some u => simp [hu]

/-- Unified unfolding of one loop iteration: a non-string item whose derived
id is already in the set is skipped; otherwise the document of the item is
appended and its id added to the set. -/
lemma reduce_docs_items_cons (gen : String → String) (item : DocItem)
    (rest : List DocItem) (ids : List (Option String)) :
    reduce_docs_items gen (item :: rest) ids =
      if item.isString = false ∧ some (derived_id gen item) ∈ ids
      then reduce_docs_items gen rest ids
      else mk_doc gen item ::
        reduce_docs_items gen rest (some (derived_id gen item) :: ids) := by
  cases item with
  | str s => simp [reduce_docs_items, DocItem.isString, mk_doc, derived_id]
  | dict page_content uuid =>
    simp only [reduce_docs_items, DocItem.isString, mk_doc, derived_id]
    by_cases h : some (dict_item_id gen page_content uuid) ∈ ids <;> simp [h]
  | doc d =>
    simp only [reduce_docs_items, DocItem.isString, derived_id]
    by_cases h : some (doc_item_id gen d) ∈ ids
    · simp [h]
    · simp only [h, and_false, false_and, if_neg, ite_false, mk_doc]
      by_cases he : d.uuid.getD "" = "" <;>
        simp [he, doc_item_id, reduce_docs_items]

/-- Unified unfolding of the id-set threading for one loop iteration. -/
lemma ids_after_cons (gen : String → String) (item : DocItem)
    (rest : List DocItem) (ids : List (Option String)) :
    ids_after gen (item :: rest) ids =
      if item.isString = false ∧ some (derived_id gen item) ∈ ids
      then ids_after gen rest ids
      else ids_after gen rest (some (derived_id gen item) :: ids) := by
  cases item with
  | str s => simp [ids_after, DocItem.isString, derived_id]
  | dict page_content uuid =>
    simp only [ids_after, DocItem.isString, derived_id]
    by_cases h : some (dict_item_id gen page_content uuid) ∈ ids <;> simp [h]
  | doc d =>
    simp only [ids_after, DocItem.isString, derived_id]
    by_cases h : some (doc_item_id gen d) ∈ ids <;> simp [h]

/-- The loop processes a concatenation by processing the first part and then
the second with the id set the first part left behind. -/
lemma reduce_docs_items_append (gen : String → String) (l₁ l₂ : List DocItem)
    (ids : List (Option String)) :
    reduce_docs_items gen (l₁ ++ l₂) ids =
      reduce_docs_items gen l₁ ids ++
        reduce_docs_items gen l₂ (ids_after gen l₁ ids) := by
  induction l₁ generalizing ids with
  | nil => simp [reduce_docs_items, ids_after]
  | cons item rest ih =>
    rw [List.cons_append, reduce_docs_items_cons, reduce_docs_items_cons,
      ids_after_cons]
    by_cases h : item.isString = false ∧ some (derived_id gen item) ∈ ids <;>
      simp [h, ih]

/-- For a batch without string items, a uuid occurs among the appended
documents exactly when it is a derived id of some item and was not already
in the id set. -/
lemma mem_map_uuid_reduce_docs_items (gen : String → String)
    (l : List DocItem) (ids : List (Option String))
    (h : ∀ it ∈ l, it.isString = false) (x : Option String) :
    x ∈ (reduce_docs_items gen l ids).map Document.uuid ↔
      (x ∈ l.map (fun it => some (derived_id gen it)) ∧ x ∉ ids) := by
  induction l generalizing ids with
  | nil => simp [reduce_docs_items]
  | cons item rest ih =>
    have hitem : item.isString = false := h item (by simp)
    have hrest : ∀ it ∈ rest, it.isString = false :=
      fun it hit => h it (by simp [hit])
    rw [reduce_docs_items_cons]
    by_cases hmem : some (derived_id gen item) ∈ ids
    · simp only [hitem, hmem, and_self, true_and, if_true]
      rw [ih _ hrest]
      simp only [List.map_cons, List.mem_cons]
      constructor
      · rintro ⟨hx, hnx⟩; exact ⟨Or.inr hx, hnx⟩
      · rintro ⟨hx | hx, hnx⟩
        · exact absurd (hx ▸ hmem) hnx
        · exact ⟨hx, hnx⟩
    · simp only [hmem, and_false, if_false, List.map_cons, List.mem_cons,
        mk_doc_uuid]
      rw [ih _ hrest]
      simp only [List.mem_cons, not_or]
      constructor
      · rintro (hx | ⟨hx, hne, hnx⟩)
        · exact ⟨Or.inl hx, hx ▸ hmem⟩
        · exact ⟨Or.inr hx, hnx⟩
      · rintro ⟨hx | hx, hnx⟩
        · exact Or.inl hx
        · by_cases hxi : x = some (derived_id gen item)
          · exact Or.inl hxi
          · exact Or.inr ⟨hx, hxi, hnx⟩

/-- For a batch without string items, the appended documents carry pairwise
distinct uuids, none of which was already in the id set. -/
lemma nodup_map_uuid_reduce_docs_items (gen : String → String)
    (l : List DocItem) (ids : List (Option String))
    (h : ∀ it ∈ l, it.isString = false) :
    ((reduce_docs_items gen l ids).map Document.uuid).Nodup ∧
      ∀ x ∈ (reduce_docs_items gen l ids).map Document.uuid, x ∉ ids := by
  induction l generalizing ids with
  | nil => simp [reduce_docs_items]
  | cons item rest ih =>
    have hitem : item.isString = false := h item (by simp)
    have hrest : ∀ it ∈ rest, it.isString = false :=
      fun it hit => h it (by simp [hit])
    rw [reduce_docs_items_cons]
    by_cases hmem : some (derived_id gen item) ∈ ids
    · simp only [hitem, hmem, and_self, true_and, if_true]
      exact ih _ hrest
    · simp only [hmem, and_false, if_false, List.map_cons, mk_doc_uuid]
      obtain ⟨hnd, hfresh⟩ := ih (some (derived_id gen item) :: ids) hrest
      refine ⟨List.nodup_cons.mpr ⟨fun hx => ?_, hnd⟩, ?_⟩
      · exact (hfresh _ hx) (by simp)
      · intro x hx
        rcases List.mem_cons.mp hx with hx | hx
        · exact hx ▸ hmem
        · exact fun hxi => hfresh x hx (by simp [hxi])

/-- A batch without string items, all of whose derived ids are already in
the id set, appends nothing. -/
lemma reduce_docs_items_eq_nil (gen : String → String) (l : List DocItem)
    (ids : List (Option String)) (h : ∀ it ∈ l, it.isString = false)
    (hids : ∀ it ∈ l, some (derived_id gen it) ∈ ids) :
    reduce_docs_items gen l ids = [] := by
  induction l with
  | nil => rfl
  | cons item rest ih =>
    rw [reduce_docs_items_cons]
    have hitem : item.isString = false := h item (by simp)
    have hmem : some (derived_id gen item) ∈ ids := hids item (by simp)
    simp only [hitem, hmem, and_self, true_and, if_true]
    exact ih (fun it hit => h it (by simp [hit]))
      (fun it hit => hids it (by simp [hit]))

/-- The router classification tag, the Python `Literal["more-info",
"rag-research", "general"]` field `type` of the `Router` TypedDict
(state.py). -/
inductive RouterType
  | more_info
  | rag_research
  | general
  deriving DecidableEq, Repr

/-- The `Router` TypedDict of state.py: classification tag plus free-text
rationale. -/
structure Router where
  logic : String
  type : RouterType
  deriving DecidableEq, Repr

/-- `AgentState` of state.py restricted to the fields the routing and
research steps read: messages (content only), router decision, plan steps,
accumulated documents. -/
structure AgentState where
  messages : List String
  router : Router
  steps : List String
  documents : List Document
  deriving DecidableEq, Repr

/-- `route_query` (main_graph.py lines 197-214): the dict
`mapping[state.router["type"]]` over the three tags; the `Literal` type of
the field makes the lookup total. -/
def route_query (state : AgentState) : String :=
  match state.router.type with
  | .more_info => "ask_for_more_info"
  | .general => "respond_to_general_query"
  | .rag_research => "create_research_plan"

/-- `check_finished` (main_graph.py lines 217-227): always returns
"respond". -/
def check_finished (_state : AgentState) : String :=
  "respond"

/-- The named nodes of the main graph plus the framework START and END
sentinels (main_graph.py lines 231-245). -/
inductive Node
  | START
  | analyze_and_route_query
  | ask_for_more_info
  | respond_to_general_query
  | create_research_plan
  | conduct_research
  | respond
  | END
  deriving DecidableEq, BEq, Repr

/-- Resolution of a node name string returned by a conditional-edge router
to the graph node it targets. -/
def node_named (name : String) : Option Node :=
  if name = "analyze_and_route_query" then some .analyze_and_route_query
  else if name = "ask_for_more_info" then some .ask_for_more_info
  else if name = "respond_to_general_query" then some .respond_to_general_query
  else if name = "create_research_plan" then some .create_research_plan
  else if name = "conduct_research" then some .conduct_research
  else if name = "respond" then some .respond
  else none

/-- The edge relation of the main graph exactly as wired by the
`add_edge` / `add_conditional_edges` calls (main_graph.py lines 239-245):
START → analyze_and_route_query; conditional edges from
analyze_and_route_query via `route_query` and from conduct_research via
`check_finished`; create_research_plan → conduct_research; the three
terminal nodes → END. -/
def next_node (state : AgentState) : Node → Option Node
  | .START => some .analyze_and_route_query
  | .analyze_and_route_query => node_named (route_query state)
  | .ask_for_more_info => some .END
  | .respond_to_general_query => some .END
  | .create_research_plan => some .conduct_research
  | .conduct_research => node_named (check_finished state)
  | .respond => some .END
  | .END => none

/-- The sequence of nodes visited when following `next_node` from a node,
with fuel bounding the walk (the graph is acyclic, so enough fuel yields
the whole path). -/
def run_from (state : AgentState) : Nat → Node → List Node
  | 0, n => [n]
  | Nat.succ fuel, n =>
    n :: (match next_node state n with
      | none => []
      | some m => run_from state fuel m)

/-- The full node path of one turn of the main graph, from START. -/
def main_trace (state : AgentState) : List Node :=
  run_from state 8 .START

/-- `conduct_research` (main_graph.py lines 142-164): one researcher-graph
invocation per plan step, then the per-step document lists concatenated in
step order.  `research` models `researcher_graph.ainvoke({"question":
step})["documents"]`. -/
def conduct_research (research : String → List Document)
    (steps : List String) : List Document :=
  (steps.map research).flatten

/-- The context string `respond` builds (main_graph.py line 184):
`"\n\n".join(doc.page_content for doc in state.documents)`. -/
def respond_context (documents : List Document) : String :=
  String.intercalate "\n\n" (documents.map (·.page_content))

/-- `QueryState` of state.py: the single query string handed to one
retrieval task. -/
structure QueryState where
  query : String
  deriving DecidableEq, Repr

/-- `ResearcherState` of state.py: question, generated queries, accumulated
documents. -/
structure ResearcherState where
  question : String
  queries : List String
  documents : List Document
  deriving DecidableEq, Repr

/-- A langgraph `Send` packet: target node name plus the private input
state of the dispatched task. -/
structure Send where
  node : String
  input : QueryState
  deriving DecidableEq, Repr

/-- `retrieve_in_parallel` (researcher_graph.py lines 84-104): one
`Send("retrieve_documents", QueryState(query=query))` per generated
query. -/
def retrieve_in_parallel (state : ResearcherState) : List Send :=
  state.queries.map (fun query => ⟨"retrieve_documents", ⟨query⟩⟩)

/-- The host framework merges the document list returned by each retrieval task
into `ResearcherState.documents` through the reducer annotated on the field
`reduce_docs` (state.py line 43); folding over the task results in the
order the framework applies them. -/
def merge_task_results (gen : String → String) (init : List Document)
    (results : List (List Document)) : List Document :=
  results.foldl
    (fun acc r => reduce_docs gen (some acc) (.items (r.map .doc))) init

/-- The set of uuid metadata values present in a document collection. -/
def doc_ids (documents : List Document) : Finset (Option String) :=
  (documents.map Document.uuid).toFinset

/-- Outcome of opening and parsing the configured `docs_file`
(index_graph.py lines 51-61): the file may be missing
(`FileNotFoundError`), hold invalid JSON (`JSONDecodeError`), or parse to
a list of items. -/
inductive DocsFile
  | missing
  | parse_error
  | loaded (items : List DocItem)
  deriving DecidableEq, Repr

/-- `index_docs` (index_graph.py lines 23-75).  With no config it raises;
otherwise it takes the documents of the state, or — when they are empty — loads
from `docs_file`, treating a missing file or bad JSON as an empty load.
The `.ok` payload pairs the documents handed to
`retriever.aadd_documents` (empty = nothing added, the add is skipped)
with the returned state update `{"documents": "delete"}`. -/
def index_docs (gen : String → String) (has_config : Bool)
    (state_documents : List Document) (file : DocsFile) :
    Except String (List Document × String) :=
  if has_config = false then .error "运行 index_docs 需要配置。"
  else
    let docs :=
      if state_documents.isEmpty = false then state_documents
      else
        match file with
        | .missing => []
        | .parse_error => []
        | .loaded items => reduce_docs gen (some []) (.items items)
    .ok (docs, "delete")

/-- `MilvusCRUDManager` restricted to what `delete_documents` touches: the
retriever provider of the configuration (used in the error message) and the
backing store contents. -/
structure MilvusCRUDManager where
  retriever_provider : String
  store : List Document
  deriving DecidableEq, Repr

/-- `MilvusCRUDManager.delete_documents` (milvus_crud_manager.py lines
92-103): unconditionally raises `NotImplementedError` before touching the
store; a `.ok` result would carry the success flag and the
possibly-updated manager. -/
def MilvusCRUDManager.delete_documents (m : MilvusCRUDManager)
    (_ids : List String) : Except String (Bool × MilvusCRUDManager) :=
  .error ("Delete operation by IDs not implemented for "
    ++ m.retriever_provider)

/-- Claim C3: applying `reduce_docs` with the delete signal returns the
empty collection, regardless of the size or contents of the existing
collection. -/
theorem reduce_docs_delete_signal_resets (gen : String → String)
    (existing : Option (List Document)) :
    reduce_docs gen existing (.str "delete") = [] := by
  simp [reduce_docs]

/-- Claim C4: a single string `s ≠ "delete"` is appended as one fresh
Document whose uuid metadata is the content hash of `s`; every existing
document is preserved, the length grows by exactly one, and no
deduplication against the existing collection takes place. -/
theorem reduce_docs_scalar_string_append (gen : String → String)
    (existing : List Document) (s : String) (h : s ≠ "delete") :
    reduce_docs gen (some existing) (.str s)
      = existing ++ [⟨s, some (gen s)⟩] ∧
    (reduce_docs gen (some existing) (.str s)).length
      = existing.length + 1 := by
  constructor
  · simp [reduce_docs, h]
  · simp [reduce_docs, h]

/-- Witness for claim C4 at a concrete input where the id of the new document
already occurs in the existing collection: it is appended anyway. -/
theorem reduce_docs_scalar_string_append_witness :
    ("A" : String) ≠ "delete" ∧
    (reduce_docs (fun t => "h" ++ t) (some [⟨"A", some "hA"⟩]) (.str "A")
        = [⟨"A", some "hA"⟩] ++ [⟨"A", some ((fun t => "h" ++ t) "A")⟩] ∧
      (reduce_docs (fun t => "h" ++ t) (some [⟨"A", some "hA"⟩])
          (.str "A")).length
        = ([⟨"A", some "hA"⟩] : List Document).length + 1) :=
  ⟨by decide,
    reduce_docs_scalar_string_append (fun t => "h" ++ t)
      [⟨"A", some "hA"⟩] "A" (by decide)⟩

/-- Claim C10: for every non-delete input, the result of `reduce_docs` has
the existing documents as an unchanged ordered first segment, with new
documents only appended after them. -/
theorem reduce_docs_preserves_existing (gen : String → String)
    (existing : List Document) (new : NewInput)
    (h : new ≠ .str "delete") :
    ∃ tail, reduce_docs gen (some existing) new = existing ++ tail := by
  cases new with
  | str s =>
    have hs : s ≠ "delete" := fun he => h (by rw [he])
    exact ⟨[⟨s, some (gen s)⟩], by simp [reduce_docs, hs]⟩
  | items l =>
    exact ⟨reduce_docs_items gen l (existing.map Document.uuid),
      by simp [reduce_docs]⟩

/-- Witness for claim C10 at a concrete input. -/
theorem reduce_docs_preserves_existing_witness :
    (NewInput.items [.str "B"] ≠ .str "delete") ∧
    ∃ tail, reduce_docs (fun t => "h" ++ t) (some [⟨"A", some "hA"⟩])
        (.items [.str "B"]) = [⟨"A", some "hA"⟩] ++ tail :=
  ⟨by decide,
    reduce_docs_preserves_existing (fun t => "h" ++ t)
      [⟨"A", some "hA"⟩] (.items [.str "B"]) (by decide)⟩

/-- Claim C5: `route_query` maps the "more-info" tag to the
ask_for_more_info node, "general" to respond_to_general_query and
"rag-research" to create_research_plan, and for every state its result is
one of these three node names (no fallthrough). -/
theorem route_query_mandated_mapping :
    (∀ (msgs : List String) (lg : String) (steps : List String)
        (docs : List Document),
      route_query ⟨msgs, ⟨lg, .more_info⟩, steps, docs⟩
        = "ask_for_more_info" ∧
      route_query ⟨msgs, ⟨lg, .general⟩, steps, docs⟩
        = "respond_to_general_query" ∧
      route_query ⟨msgs, ⟨lg, .rag_research⟩, steps, docs⟩
        = "create_research_plan") ∧
    ∀ state : AgentState,
      route_query state = "ask_for_more_info" ∨
      route_query state = "respond_to_general_query" ∨
      route_query state = "create_research_plan" := by
  refine ⟨fun msgs lg steps docs => ⟨rfl, rfl, rfl⟩, fun state => ?_⟩
  obtain ⟨msgs, ⟨lg, ty⟩, steps, docs⟩ := state
  cases ty <;> simp [route_query]

/-- Claim C8: given a state with no documents and a missing default
documents file, `index_docs` raises no error, hands nothing to the vector
store, and returns the delete signal for the documents field. -/
theorem index_docs_missing_file_not_fatal (gen : String → String) :
    index_docs gen true [] .missing = .ok ([], "delete") := by
  rfl

/-- Claim C9: delete-by-id on the Milvus adapter raises an explicit
unsupported-operation error for every id list and never produces a success
result, so no (partial) store modification can be observed. -/
theorem milvus_delete_documents_unsupported (m : MilvusCRUDManager)
    (ids : List String) :
    m.delete_documents ids
      = .error ("Delete operation by IDs not implemented for "
          ++ m.retriever_provider) ∧
    ∀ ok : Bool × MilvusCRUDManager, m.delete_documents ids ≠ .ok ok :=
  ⟨rfl, fun _ h => nomatch h⟩

/-- Witness for claim C9 at a concrete manager and id list. -/
theorem milvus_delete_documents_unsupported_witness :
    (MilvusCRUDManager.mk "milvus" [⟨"A", some "u"⟩]).delete_documents ["id1"]
      = .error ("Delete operation by IDs not implemented for "
          ++ (MilvusCRUDManager.mk "milvus"
              [⟨"A", some "u"⟩]).retriever_provider) ∧
    ∀ ok : Bool × MilvusCRUDManager,
      (MilvusCRUDManager.mk "milvus" [⟨"A", some "u"⟩]).delete_documents
          ["id1"] ≠ .ok ok :=
  milvus_delete_documents_unsupported ⟨"milvus", [⟨"A", some "u"⟩]⟩ ["id1"]

/-- Counterexample to claim C1 as stated: a string item of the batch whose
derived id already occurs among the ids of the existing collection is appended
anyway (the string branch of the loop never consults the id set),
duplicating the id. -/
theorem reduce_docs_string_item_not_deduped :
    some (derived_id (fun t => "h" ++ t) (.str "A"))
        ∈ ([⟨"A", some "hA"⟩] : List Document).map Document.uuid ∧
    reduce_docs (fun t => "h" ++ t) (some [⟨"A", some "hA"⟩])
        (.items [.str "A"])
      = [⟨"A", some "hA"⟩, ⟨"A", some "hA"⟩] := by
  exact ⟨by decide, by decide⟩

/-- Claim C1 as amended: in the list path of `reduce_docs`, a dict or
Document item is dropped when its derived id is already among the existing
ids or the ids accumulated over earlier items of the same batch, and
appended otherwise; a string item is always appended, with its id still
registered for the items that follow. -/
theorem reduce_docs_batch_dedup (gen : String → String)
    (existing : List Document) (pre rest : List DocItem) (item : DocItem)
    (hitem : item.isString = false) :
    (some (derived_id gen item)
        ∈ ids_after gen pre (existing.map Document.uuid) →
      reduce_docs gen (some existing) (.items (pre ++ item :: rest))
        = reduce_docs gen (some existing) (.items (pre ++ rest))) ∧
    (some (derived_id gen item)
        ∉ ids_after gen pre (existing.map Document.uuid) →
      reduce_docs gen (some existing) (.items (pre ++ item :: rest))
        = existing
          ++ reduce_docs_items gen pre (existing.map Document.uuid)
          ++ mk_doc gen item ::
            reduce_docs_items gen rest
              (some (derived_id gen item)
                :: ids_after gen pre (existing.map Document.uuid))) ∧
    (∀ s : String,
      reduce_docs gen (some existing) (.items (pre ++ .str s :: rest))
        = existing
          ++ reduce_docs_items gen pre (existing.map Document.uuid)
          ++ (⟨s, some (gen s)⟩ : Document) ::
            reduce_docs_items gen rest
              (some (gen s)
                :: ids_after gen pre (existing.map Document.uuid))) := by
  have hbase : ∀ l : List DocItem,
      reduce_docs gen (some existing) (.items l)
        = existing ++ reduce_docs_items gen l (existing.map Document.uuid) := by
    intro l
    simp [reduce_docs]
  refine ⟨fun hmem => ?_, fun hmem => ?_, fun s => ?_⟩
  · rw [hbase, hbase, reduce_docs_items_append, reduce_docs_items_append,
      reduce_docs_items_cons]
    simp [hitem, hmem]
  · rw [hbase, reduce_docs_items_append, reduce_docs_items_cons]
    simp [hitem, hmem, List.append_assoc]
  · rw [hbase, reduce_docs_items_append, reduce_docs_items_cons]
    simp [DocItem.isString, mk_doc, derived_id, List.append_assoc]

/-- Witness for amended claim C1 at a concrete input: a second dict item
with the same derived id as the first is dropped. -/
theorem reduce_docs_batch_dedup_witness :
    reduce_docs (fun t => "h" ++ t) (some [])
        (.items ([.dict "A" none] ++ DocItem.dict "A" none :: []))
      = reduce_docs (fun t => "h" ++ t) (some [])
          (.items ([.dict "A" none] ++ [])) :=
  (reduce_docs_batch_dedup (fun t => "h" ++ t) [] [.dict "A" none] []
    (.dict "A" none) (by decide)).1 (by decide)

/-- Counterexample to claim C2 as stated: after reducing the same batch of
dict items twice into an empty collection, the size is the number of
distinct derived ids, which can differ from the number of distinct content
hashes when items carry an explicit metadata uuid — here two items with
different contents share one explicit uuid. -/
theorem reduce_docs_reindex_size_not_content_hashes :
    (reduce_docs (fun t => "h" ++ t)
        (some (reduce_docs (fun t => "h" ++ t) none
          (.items [.dict "A" (some "X"), .dict "B" (some "X")])))
        (.items [.dict "A" (some "X"), .dict "B" (some "X")])).length
      ≠ (([DocItem.dict "A" (some "X"), .dict "B" (some "X")]).map
          (fun it => (fun t => "h" ++ t) (item_content it))).toFinset.card := by
  decide

/-- Claim C2 as amended: reducing a batch of dict/Document items into an
initially empty collection and then reducing the same batch again is
idempotent and yields a collection with pairwise distinct ids whose size
is the number of distinct derived ids (metadata uuid when present and
non-empty, content hash otherwise) among the items. -/
theorem reduce_docs_reindex_idempotent (gen : String → String)
    (L : List DocItem) (h : ∀ it ∈ L, it.isString = false) :
    reduce_docs gen (some (reduce_docs gen none (.items L))) (.items L)
      = reduce_docs gen none (.items L) ∧
    ((reduce_docs gen (some (reduce_docs gen none (.items L)))
        (.items L)).map Document.uuid).Nodup ∧
    (reduce_docs gen (some (reduce_docs gen none (.items L)))
        (.items L)).length
      = (L.map (fun it => derived_id gen it)).toFinset.card := by
  have hR1 : reduce_docs gen none (.items L) = reduce_docs_items gen L [] := by
    simp [reduce_docs]
  have hmem : ∀ x, x ∈ (reduce_docs_items gen L []).map Document.uuid ↔
      x ∈ L.map (fun it => some (derived_id gen it)) := by
    intro x
    rw [mem_map_uuid_reduce_docs_items gen L [] h]
    simp
  have hnodup := (nodup_map_uuid_reduce_docs_items gen L [] h).1
  have hnil : reduce_docs_items gen L
      ((reduce_docs_items gen L []).map Document.uuid) = [] :=
    reduce_docs_items_eq_nil gen L _ h
      (fun it hit => (hmem _).mpr (List.mem_map.mpr ⟨it, hit, rfl⟩))
  have hR2 : reduce_docs gen (some (reduce_docs gen none (.items L)))
      (.items L) = reduce_docs_items gen L [] := by
    rw [hR1]
    simp [reduce_docs, hnil]
  refine ⟨by rw [hR2, hR1], by rw [hR2]; exact hnodup, ?_⟩
  rw [hR2]
  rw [show (reduce_docs_items gen L []).length
      = ((reduce_docs_items gen L []).map Document.uuid).length from
    (List.length_map _ _).symm]
  rw [← List.toFinset_card_of_nodup hnodup]
  rw [show ((reduce_docs_items gen L []).map Document.uuid).toFinset
      = (L.map (fun it => some (derived_id gen it))).toFinset from
    Finset.ext fun x => by simp only [List.mem_toFinset]; exact hmem x]
  rw [show L.map (fun it => some (derived_id gen it))
      = (L.map (fun it => derived_id gen it)).map some from by
    simp [List.map_map, Function.comp_def]]
  rw [show ((L.map (fun it => derived_id gen it)).map some).toFinset
      = (L.map (fun it => derived_id gen it)).toFinset.image some from
    Finset.ext fun x => by simp]
  exact Finset.card_image_of_injective _ (Option.some_injective _)

/-- Witness for amended claim C2 at a concrete input with a repeated
item. -/
theorem reduce_docs_reindex_idempotent_witness :
    reduce_docs (fun t => "h" ++ t)
        (some (reduce_docs (fun t => "h" ++ t) none
          (.items [.dict "A" none, .dict "A" none])))
        (.items [.dict "A" none, .dict "A" none])
      = reduce_docs (fun t => "h" ++ t) none
          (.items [.dict "A" none, .dict "A" none]) ∧
    ((reduce_docs (fun t => "h" ++ t)
        (some (reduce_docs (fun t => "h" ++ t) none
          (.items [.dict "A" none, .dict "A" none])))
        (.items [.dict "A" none, .dict "A" none])).map Document.uuid).Nodup ∧
    (reduce_docs (fun t => "h" ++ t)
        (some (reduce_docs (fun t => "h" ++ t) none
          (.items [.dict "A" none, .dict "A" none])))
        (.items [.dict "A" none, .dict "A" none])).length
      = (([DocItem.dict "A" none, .dict "A" none]).map
          (fun it => derived_id (fun t => "h" ++ t) it)).toFinset.card :=
  reduce_docs_reindex_idempotent (fun t => "h" ++ t)
    [.dict "A" none, .dict "A" none] (by decide)

/-- Claim C6: after a rag-research classification the node path of the turn is
START → routing → planning → researching → responding → END, visiting the
responding node exactly once; the planning → researching and
researching → responding edges hold for every state; and with a zero-step
plan zero research tasks are dispatched, zero documents are gathered, and
the response is generated from an empty context string. -/
theorem main_flow_research_reaches_respond_once :
    ∀ (msgs : List String) (lg : String) (steps : List String)
        (docs : List Document),
      main_trace ⟨msgs, ⟨lg, .rag_research⟩, steps, docs⟩
        = [.START, .analyze_and_route_query, .create_research_plan,
           .conduct_research, .respond, .END] ∧
      (main_trace ⟨msgs, ⟨lg, .rag_research⟩, steps, docs⟩).count .respond
        = 1 ∧
      (∀ state : AgentState,
        next_node state .create_research_plan = some .conduct_research ∧
        next_node state .conduct_research = some .respond) ∧
      ∀ research : String → List Document,
        (([] : List String).map research).length = 0 ∧
        conduct_research research [] = [] ∧
        respond_context (conduct_research research []) = "" := by
  intro msgs lg steps docs
  exact ⟨rfl, rfl, fun state => ⟨rfl, rfl⟩, fun research => ⟨rfl, rfl, rfl⟩⟩

/-- A permutation of an outer list of lists yields a permutation of its
flattening. -/
lemma flatten_perm_of_perm {α : Type _} {l₁ l₂ : List (List α)}
    (h : l₁.Perm l₂) : l₁.flatten.Perm l₂.flatten := by
  induction h with
  | nil => exact .rfl
  | cons x _ ih =>
    simp only [List.flatten_cons]
    exact List.Perm.append_left x ih
  | swap x y l =>
    simp only [List.flatten_cons, ← List.append_assoc]
    exact List.Perm.append_right _ List.perm_append_comm
  | trans _ _ ih₁ ih₂ => exact ih₁.trans ih₂

/-- Permuted lists have equal finsets of elements. -/
lemma toFinset_eq_of_perm {α : Type _} [DecidableEq α] {l₁ l₂ : List α}
    (h : l₁.Perm l₂) : l₁.toFinset = l₂.toFinset := by
  ext x
  simp [h.mem_iff]

/-- Merging the output of one retrieval task through the documents reducer adds
exactly the derived ids of its documents to the id set of the collection. -/
lemma doc_ids_merge_step (gen : String → String) (acc : List Document)
    (r : List Document) :
    doc_ids (reduce_docs gen (some acc) (.items (r.map .doc)))
      = doc_ids acc ∪
        (r.map (fun d => some (doc_item_id gen d))).toFinset := by
  have hns : ∀ it ∈ r.map DocItem.doc, it.isString = false := by
    intro it hit
    obtain ⟨d, _, rfl⟩ := List.mem_map.mp hit
    rfl
  have hbase : reduce_docs gen (some acc) (.items (r.map .doc))
      = acc ++ reduce_docs_items gen (r.map .doc) (acc.map Document.uuid) := by
    simp [reduce_docs]
  rw [hbase]
  ext x
  simp only [doc_ids, List.map_append, List.toFinset_append, Finset.mem_union,
    List.mem_toFinset]
  rw [mem_map_uuid_reduce_docs_items gen _ _ hns x]
  constructor
  · rintro (hx | ⟨hx, _⟩)
    · exact Or.inl hx
    · right
      obtain ⟨it, hit, rfl⟩ := List.mem_map.mp hx
      obtain ⟨d, hd, rfl⟩ := List.mem_map.mp hit
      exact List.mem_map.mpr ⟨d, hd, rfl⟩
  · rintro (hx | hx)
    · exact Or.inl hx
    · by_cases hacc : x ∈ acc.map Document.uuid
      · exact Or.inl hacc
      · refine Or.inr ⟨?_, hacc⟩
        obtain ⟨d, hd, rfl⟩ := List.mem_map.mp hx
        exact List.mem_map.mpr ⟨.doc d, List.mem_map.mpr ⟨d, hd, rfl⟩, rfl⟩

/-- The id set of the merged collection after all tasks is the initial id
set united with the derived ids of the documents of every task. -/
lemma doc_ids_merge_fold (gen : String → String) (init : List Document)
    (results : List (List Document)) :
    doc_ids (merge_task_results gen init results)
      = doc_ids init ∪
        (results.flatten.map (fun d => some (doc_item_id gen d))).toFinset := by
  induction results generalizing init with
  | nil => simp [merge_task_results, doc_ids]
  | cons r rs ih =>
    have hstep : merge_task_results gen init (r :: rs)
        = merge_task_results gen
            (reduce_docs gen (some init) (.items (r.map .doc))) rs := rfl
    rw [hstep, ih, doc_ids_merge_step, List.flatten_cons, List.map_append,
      List.toFinset_append, Finset.union_assoc]

/-- Claim C7: the researcher step dispatches exactly one retrieval task per
generated query, the i-th task targeting the retrieval node and carrying
the i-th query; and the id set of the merged document collection of the step is
the union of the initial ids with the derived ids of the output of every task,
hence it does not depend on the order in which the task results are
applied. -/
theorem researcher_fan_out_union (gen : String → String)
    (state : ResearcherState) (init : List Document)
    (results results2 : List (List Document))
    (hperm : results2.Perm results) :
    (retrieve_in_parallel state).length = state.queries.length ∧
    List.Forall₂ (fun q t => t = Send.mk "retrieve_documents" ⟨q⟩)
      state.queries (retrieve_in_parallel state) ∧
    doc_ids (merge_task_results gen init results)
      = doc_ids init ∪
        (results.flatten.map (fun d => some (doc_item_id gen d))).toFinset ∧
    doc_ids (merge_task_results gen init results2)
      = doc_ids (merge_task_results gen init results) := by
  refine ⟨by simp [retrieve_in_parallel], ?_,
    doc_ids_merge_fold gen init results, ?_⟩
  · exact List.forall₂_map_right_iff.mpr
      (List.forall₂_same.mpr fun q _ => rfl)
  · rw [doc_ids_merge_fold, doc_ids_merge_fold]
    congr 1
    exact toFinset_eq_of_perm ((flatten_perm_of_perm hperm).map _)

/-- Witness for claim C7 at a concrete input with two tasks whose results
are applied in the two possible orders. -/
theorem researcher_fan_out_union_witness :
    (retrieve_in_parallel ⟨"q", ["a", "b"], []⟩).length
      = (["a", "b"] : List String).length ∧
    List.Forall₂ (fun q t => t = Send.mk "retrieve_documents" ⟨q⟩)
      ["a", "b"] (retrieve_in_parallel ⟨"q", ["a", "b"], []⟩) ∧
    doc_ids (merge_task_results (fun t => "h" ++ t) []
        [[⟨"D1", none⟩], [⟨"D2", some "u2"⟩]])
      = doc_ids [] ∪
        (([[⟨"D1", none⟩], [⟨"D2", some "u2"⟩]] :
            List (List Document)).flatten.map
          (fun d => some (doc_item_id (fun t => "h" ++ t) d))).toFinset ∧
    doc_ids (merge_task_results (fun t => "h" ++ t) []
        [[⟨"D2", some "u2"⟩], [⟨"D1", none⟩]])
      = doc_ids (merge_task_results (fun t => "h" ++ t) []
          [[⟨"D1", none⟩], [⟨"D2", some "u2"⟩]]) := by
  have h := researcher_fan_out_union (fun t => "h" ++ t)
    ⟨"q", ["a", "b"], []⟩ []
    [[⟨"D1", none⟩], [⟨"D2", some "u2"⟩]]
    [[⟨"D2", some "u2"⟩], [⟨"D1", none⟩]] (by decide)
  exact h

end RagAgent

